import Mathlib

/-!
# Verification of the `mathie` geometry/units library

Shallow embedding of the `mathie` crate: the unit-tag protocol
(`src/unit/mod.rs`), the tagged carrier types `Value` and `Vec2D`
(`src/types/value.rs`, `src/types/vec2.rs`) and the rectangle
type `Rect` over a plain 2-vector (`src/types/rect.rs`).

Modelling conventions:
* A Rust panic (the `assert!` inside `check_compatible`, a failed
  `expect`/`unwrap`) is modelled as `Option.none`; operations that can
  panic return `Option`.
* The `f64`/`f32` intermediate arithmetic in the unit-conversion path
  and in the numeric casts is modelled as exact rational arithmetic;
  the truncating float-to-integer conversion of `num_traits` is
  `ratTrunc` (truncation toward zero).
* The zero-size unit tags with a static base factor are represented by
  their factor, a rational parameter of the conversion functions.
* The operator-generating macro `impl_op` is one template instantiated
  at the five arithmetic methods; it is embedded as a function taking
  the scalar method `f : N → N → N` as a parameter.
-/

namespace Mathie

/-- Embedding of the `Unit` trait of `src/unit/mod.rs`: a copyable tag
type with the `is_self_compatible` policy hook (source default:
always `true`). -/
class UnitTag (U : Type) where
  is_self_compatible : U → U → Bool

export UnitTag (is_self_compatible)

/-- The no-unit tag `()` (`impl Unit for ()`), using the default,
always-`true` compatibility hook. -/
instance : UnitTag Unit where
  is_self_compatible _ _ := true

/-- Embedding of `check_compatible` (src/unit/mod.rs:44-50): it computes
`v0.is_self_compatible(&v1)`; the surrounding `assert!` is modelled by
the callers returning `none` when this is `false`. -/
def check_compatible {U : Type} [UnitTag U] (v0 v1 : U) : Bool :=
  is_self_compatible v0 v1

/-- A test tag whose compatibility hook can be made to fail: two
instances are compatible only when both carry `ok = true`. This stands
for a user tag type overriding `is_self_compatible`. -/
structure FlagTag where
  ok : Bool
deriving DecidableEq

instance : UnitTag FlagTag where
  is_self_compatible a b := a.ok && b.ok

/-- Embedding of `Value<N, U>` (src/types/value.rs): one numeric
reading plus a tag. -/
structure Value (N U : Type) where
  value : N
  unit : U
deriving DecidableEq

/-- Embedding of `Vec2D<N, U>` (src/types/vec2.rs): the two lanes
`value[0]`, `value[1]` of the stored array plus one shared tag. -/
structure Vec2D (N U : Type) where
  x : N
  y : N
  unit : U
deriving DecidableEq

/-- Embedding of `Value::new_u`. -/
def Value.new_u {N U : Type} (value : N) (unit : U) : Value N U :=
  ⟨value, unit⟩

/-- Embedding of `Vec2D::new_u`. -/
def Vec2D.new_u {N U : Type} (x y : N) (unit : U) : Vec2D N U :=
  ⟨x, y, unit⟩

/-- Embedding of the `impl_op` template for `Value` with a same-typed
right-hand side (src/types/value.rs:112-122): check tag compatibility
(panic — `none` — on failure), apply the scalar method lane-wise, keep
the left operand's tag. Instantiating `f` at `+ - * / %` gives the five
generated operators. -/
def Value.binOp {N U : Type} [UnitTag U] (f : N → N → N)
    (a rhs : Value N U) : Option (Value N U) :=
  if check_compatible a.unit rhs.unit then
    some ⟨f a.value rhs.value, a.unit⟩
  else
    none

/-- Embedding of the `impl_op` template for `Value` with a bare `N`
right-hand side (src/types/value.rs:124-133): no compatibility check,
tag kept. -/
def Value.binOpN {N U : Type} (f : N → N → N) (a : Value N U) (rhs : N) :
    Value N U :=
  ⟨f a.value rhs, a.unit⟩

/-- Embedding of `Value::lerp` (src/types/value.rs:47-53):
compatibility-checked, `((other - self) * t) + self`, tag kept. -/
def Value.lerp {N U : Type} [UnitTag U] [Add N] [Sub N] [Mul N]
    (a other : Value N U) (t : N) : Option (Value N U) :=
  if check_compatible a.unit other.unit then
    some ⟨((other.value - a.value) * t) + a.value, a.unit⟩
  else
    none

/-- Embedding of `Value::cast` (src/types/value.rs:66-71): convert the
reading with the fallible `NO::from` (passed as `f`), keep the tag. -/
def Value.cast {N M U : Type} (f : N → Option M) (a : Value N U) :
    Option (Value M U) :=
  (f a.value).map fun m => ⟨m, a.unit⟩

/-- Embedding of the `impl_op` template for `Vec2D` with a same-typed
right-hand side (src/types/vec2.rs:489-499): check tag compatibility,
apply the scalar method on each lane, keep the left operand's tag. -/
def Vec2D.binOp {N U : Type} [UnitTag U] (f : N → N → N)
    (a rhs : Vec2D N U) : Option (Vec2D N U) :=
  if check_compatible a.unit rhs.unit then
    some ⟨f a.x rhs.x, f a.y rhs.y, a.unit⟩
  else
    none

/-- Embedding of the `impl_op` template for `Vec2D` with a bare `N`
right-hand side (src/types/vec2.rs:501-510): broadcast, no check, tag
kept. -/
def Vec2D.binOpN {N U : Type} (f : N → N → N) (a : Vec2D N U) (rhs : N) :
    Vec2D N U :=
  ⟨f a.x rhs, f a.y rhs, a.unit⟩

/-- Embedding of `Vec2D::try_cast` (src/types/vec2.rs:66-74): convert
each lane with the fallible `NO::from` (passed as `f`), keep the tag.
`Vec2D::cast` is `try_cast` followed by `expect` (a panic, i.e. the
`none` case). -/
def Vec2D.try_cast {N M U : Type} (f : N → Option M) (v : Vec2D N U) :
    Option (Vec2D M U) :=
  (f v.x).bind fun a => (f v.y).map fun b => ⟨a, b, v.unit⟩

/-- Embedding of `Vec2D::map` (src/types/vec2.rs:178-186): apply `func`
to both lanes, keep the tag. -/
def Vec2D.map {N M U : Type} (func : N → M) (v : Vec2D N U) : Vec2D M U :=
  ⟨func v.x, func v.y, v.unit⟩

/-- Embedding of `Vec2D::move_x` (src/types/vec2.rs:240-249):
compatibility-checked lane substitution, keeping `self`'s tag. -/
def Vec2D.move_x {N U : Type} [UnitTag U] (v other : Vec2D N U) :
    Option (Vec2D N U) :=
  if check_compatible v.unit other.unit then
    some ⟨other.x, v.y, v.unit⟩
  else
    none

/-- Embedding of `Vec2D::move_y` (src/types/vec2.rs:267-276):
compatibility-checked lane substitution, keeping `self`'s tag. -/
def Vec2D.move_y {N U : Type} [UnitTag U] (v other : Vec2D N U) :
    Option (Vec2D N U) :=
  if check_compatible v.unit other.unit then
    some ⟨v.x, other.y, v.unit⟩
  else
    none

/-- Embedding of `PartialEq for Value` (src/types/value.rs:152-158):
`self.value == other.value`; the unit field is not read. -/
def Value.beqV {N U : Type} [BEq N] (a b : Value N U) : Bool :=
  a.value == b.value

/-- Embedding of `PartialEq for Vec2D` (src/types/vec2.rs:448-454):
`self.value == other.value` on the two-element array; the unit field is
not read. -/
def Vec2D.beqV {N U : Type} [BEq N] (a b : Vec2D N U) : Bool :=
  (a.x == b.x) && (a.y == b.y)

/-- Signed code of a comparison result, the `Ordering as i8` cast of
Rust (`Less = -1`, `Equal = 0`, `Greater = 1`). -/
def ordCode : Ordering → ℤ
  | .lt => -1
  | .eq => 0
  | .gt => 1

/-- Embedding of `Ord for Vec2D` (src/types/vec2.rs:471-484): sum the
two lanes' signed comparison codes and branch on the sign of the sum.
Over a linear order `partial_cmp` (src/types/vec2.rs:456-469) never
returns `None` and computes the same result. -/
def Vec2D.cmp {N U : Type} [LinearOrder N] (a other : Vec2D N U) : Ordering :=
  let x := compare a.x other.x
  let y := compare a.y other.y
  let s := ordCode x + ordCode y
  if s > 0 then .gt else if s < 0 then .lt else .eq

/-- Restatement of the spec's words for the claimed ordering semantics:
the sign of the summed comparison codes, as an `Ordering`. -/
def sumCodeSign (z : ℤ) : Ordering :=
  if z > 0 then .gt else if z < 0 then .lt else .eq

/-- Embedding of the plain 2-vector `Vec2<T>` used by `src/types/rect.rs`
(the untagged snapshot of the vector type): just the two lanes. -/
structure Vec2 (N : Type) where
  x : N
  y : N
deriving DecidableEq

/-- Lane-wise vector addition (the generated `Add` operator). -/
def Vec2.add {N : Type} [Add N] (a b : Vec2 N) : Vec2 N :=
  ⟨a.x + b.x, a.y + b.y⟩

/-- Lane-wise vector subtraction (the generated `Sub` operator). -/
def Vec2.sub {N : Type} [Sub N] (a b : Vec2 N) : Vec2 N :=
  ⟨a.x - b.x, a.y - b.y⟩

/-- Broadcast scalar division (the generated `Div<T>` operator). -/
def Vec2.divN {N : Type} [Div N] (a : Vec2 N) (rhs : N) : Vec2 N :=
  ⟨a.x / rhs, a.y / rhs⟩

/-- Embedding of `Rect<T>` (src/types/rect.rs:6-11): an origin vector
and a size vector. The size is not constrained to be non-negative. -/
structure Rect (N : Type) where
  origin : Vec2 N
  size : Vec2 N
deriving DecidableEq

/-- Embedding of `Rect::new` (src/types/rect.rs:14-19). -/
def Rect.new {N : Type} (origin size : Vec2 N) : Rect N :=
  ⟨origin, size⟩

/-- Embedding of `Rect::new_min_max` (src/types/rect.rs:22-29):
origin is `min`, size is `max - min`. -/
def Rect.new_min_max {N : Type} [Sub N] (min max : Vec2 N) : Rect N :=
  ⟨min, Vec2.sub max min⟩

/-- Embedding of `Rect::min` (src/types/rect.rs:273-275): the origin. -/
def Rect.min {N : Type} (r : Rect N) : Vec2 N :=
  r.origin

/-- Embedding of `Rect::max` (src/types/rect.rs:278-280):
`origin + size`. -/
def Rect.max {N : Type} [Add N] (r : Rect N) : Vec2 N :=
  Vec2.add r.origin r.size

/-- Embedding of `Rect::contains_pos` (src/types/rect.rs:126-130):
closed-interval containment on both axes. -/
def Rect.contains_pos {N : Type} [LinearOrderedAddCommGroup N]
    (r : Rect N) (pos : Vec2 N) : Bool :=
  let mn := Rect.min r
  let mx := Rect.max r
  decide (mn.x ≤ pos.x) && decide (pos.x ≤ mx.x) &&
    decide (mn.y ≤ pos.y) && decide (pos.y ≤ mx.y)

/-- Embedding of `Rect::contains_rect` (src/types/rect.rs:109-111):
`self` contains the other rectangle's min and max corners. -/
def Rect.contains_rect {N : Type} [LinearOrderedAddCommGroup N]
    (r rect : Rect N) : Bool :=
  r.contains_pos (Rect.min rect) && r.contains_pos (Rect.max rect)

/-- Embedding of `Rect::intersects_rect` (src/types/rect.rs:80-87):
closed-interval overlap test on both axes. -/
def Rect.intersects_rect {N : Type} [LinearOrderedAddCommGroup N]
    (r other : Rect N) : Bool :=
  let s_min := Rect.min r
  let s_max := Rect.max r
  let o_min := Rect.min other
  let o_max := Rect.max other
  decide (s_min.x ≤ o_max.x) && decide (s_max.x ≥ o_min.x) &&
    decide (s_min.y ≤ o_max.y) && decide (s_max.y ≥ o_min.y)

/-- Embedding of `Rect::is_negative` (src/types/rect.rs:140-144). -/
def Rect.is_negative {N : Type} [LinearOrderedAddCommGroup N]
    (r : Rect N) : Bool :=
  let mn := Rect.min r
  let mx := Rect.max r
  decide (mx.x < mn.x) || decide (mx.y < mn.y)

/-- Embedding of `Rect::is_empty` (src/types/rect.rs:154-158). -/
def Rect.is_empty {N : Type} [LinearOrderedAddCommGroup N]
    (r : Rect N) : Bool :=
  let mn := Rect.min r
  let mx := Rect.max r
  !(decide (mx.x > mn.x) && decide (mx.y > mn.y))

/-- Embedding of `Rect::center` (src/types/rect.rs:244-246):
`origin + size / 2`. -/
def Rect.center {N : Type} [LinearOrderedField N] (r : Rect N) : Vec2 N :=
  Vec2.add r.origin (Vec2.divN r.size 2)

/-- Embedding of `Rect::shrink` (src/types/rect.rs:168-175):
`origin += value / 2`, then `size -= value / 2` twice. -/
def Rect.shrink {N : Type} [LinearOrderedField N]
    (r : Rect N) (value : Vec2 N) : Rect N :=
  let half_value := Vec2.divN value 2
  ⟨Vec2.add r.origin half_value,
    Vec2.sub (Vec2.sub r.size half_value) half_value⟩

/-- Embedding of `Rect::expand` (src/types/rect.rs:185-192):
`origin -= value / 2`, then `size += value / 2` twice. -/
def Rect.expand {N : Type} [LinearOrderedField N]
    (r : Rect N) (value : Vec2 N) : Rect N :=
  let half_value := Vec2.divN value 2
  ⟨Vec2.sub r.origin half_value,
    Vec2.add (Vec2.add r.size half_value) half_value⟩

/-- Truncation of a rational toward zero: the model of the
`num_traits` float-to-integer conversion used by `N::from_f64` for
integer `N` (it truncates the fractional part and fails only out of
range; the range check is vacuous for the unbounded model `ℤ`). -/
def ratTrunc (q : ℚ) : ℤ :=
  q.num.tdiv q.den

/-- Base factor of the reference unit `()` (`impl BasePrefix for ()`,
src/unit/mod.rs:78-82), modelled exactly. -/
def meterFactor : ℚ := 1

/-- Base factor of `Centimeter` (`prefix!(Centimeter 0.01 cm)`,
src/unit/metric.rs:14), modelled exactly. -/
def centimeterFactor : ℚ := 1 / 100

/-- Embedding of the blanket `UnitCompatibility::convert_pos2`
(src/unit/mod.rs:85-94) at `N = ℤ`: the source tag's factor is `fF`,
the target tag's factor is `fT`; each lane is multiplied by
`fF / fT` in (exactly modelled) float arithmetic and converted back
with the truncating `from_f64`. -/
def convert_pos2 (fF fT : ℚ) (pos : Vec2 ℤ) : Option (Vec2 ℤ) :=
  let r := fF / fT
  some ⟨ratTrunc ((pos.x : ℚ) * r), ratTrunc ((pos.y : ℚ) * r)⟩

/-- Embedding of `UnitCompatibility::convert_rect`
(src/unit/mod.rs:32-36) at `N = ℤ`: convert origin and size
independently with the same tag-to-tag factors. -/
def convert_rect (fF fT : ℚ) (r : Rect ℤ) : Option (Rect ℤ) :=
  match convert_pos2 fF fT r.origin, convert_pos2 fF fT r.size with
  | some origin, some size => some ⟨origin, size⟩
  | _, _ => none

/-- Model of the `num_traits` `f32 -> u32` conversion used by
`Vec2D::try_cast::<u32>`: truncate toward zero, fail unless the result
is representable in 32 unsigned bits (`u32` modelled as `ℕ` with an
explicit bound). -/
def u32FromRat (q : ℚ) : Option ℕ :=
  let t := ratTrunc q
  if 0 ≤ t ∧ t < 2 ^ 32 then some t.toNat else none

/-- Truncation of an integral rational returns the integer itself. -/
theorem ratTrunc_intCast (k : ℤ) : ratTrunc (k : ℚ) = k := by
  simp [ratTrunc]

/-- One lane of the unit round trip: if scaling by the exact conversion
factor lands on an integer, converting there and back is the identity. -/
theorem convert_lane_round (fF fT : ℚ) (hF : fF ≠ 0) (hT : fT ≠ 0)
    (x k : ℤ) (hk : (x : ℚ) * (fF / fT) = (k : ℚ)) :
    ratTrunc ((ratTrunc ((x : ℚ) * (fF / fT)) : ℚ) * (fT / fF)) = x := by
  rw [hk, ratTrunc_intCast]
  have hback : ((k : ℚ)) * (fT / fF) = (x : ℚ) := by
    rw [← hk]
    field_simp
  rw [hback, ratTrunc_intCast]

/-- Vector-level unit round trip under the divides-evenly hypothesis. -/
theorem convert_pos2_round (fF fT : ℚ) (hF : fF ≠ 0) (hT : fT ≠ 0)
    (v : Vec2 ℤ)
    (hx : ∃ k : ℤ, (v.x : ℚ) * (fF / fT) = (k : ℚ))
    (hy : ∃ k : ℤ, (v.y : ℚ) * (fF / fT) = (k : ℚ)) :
    (convert_pos2 fF fT v).bind (convert_pos2 fT fF) = some v := by
  obtain ⟨kx, hkx⟩ := hx
  obtain ⟨ky, hky⟩ := hy
  obtain ⟨x, y⟩ := v
  simp only [convert_pos2, Option.bind_some] at *
  simp [convert_lane_round fF fT hF hT x kx hkx,
    convert_lane_round fF fT hF hT y ky hky]

/-- Rectangle-level unit round trip under the divides-evenly
hypothesis on all four stored lanes. -/
theorem convert_rect_round (fF fT : ℚ) (hF : fF ≠ 0) (hT : fT ≠ 0)
    (rc : Rect ℤ)
    (hox : ∃ k : ℤ, (rc.origin.x : ℚ) * (fF / fT) = (k : ℚ))
    (hoy : ∃ k : ℤ, (rc.origin.y : ℚ) * (fF / fT) = (k : ℚ))
    (hsx : ∃ k : ℤ, (rc.size.x : ℚ) * (fF / fT) = (k : ℚ))
    (hsy : ∃ k : ℤ, (rc.size.y : ℚ) * (fF / fT) = (k : ℚ)) :
    (convert_rect fF fT rc).bind (convert_rect fT fF) = some rc := by
  obtain ⟨o, s⟩ := rc
  have ho := convert_pos2_round fF fT hF hT o hox hoy
  have hs := convert_pos2_round fF fT hF hT s hsx hsy
  simp only [convert_pos2, Option.some_bind, Option.some.injEq] at ho hs
  simp only [convert_rect, convert_pos2, Option.some_bind, Option.some.injEq,
    Rect.mk.injEq]
  exact ⟨ho, hs⟩

/-- C1: for two carrier values (`Value` or `Vec2D`) of the same numeric
and tag types, any generated binary arithmetic operator (the `impl_op`
template at any scalar method `f`, covering `+ - * / %`) halts with the
fatal compatibility assertion — modelled as `none` — when the left
tag instance reports the right one incompatible, and returns normally
(`isSome`) when the tags report compatible. -/
theorem C1_incompatible_arith_halts {N U : Type} [UnitTag U]
    (f : N → N → N) (a b : Value N U) (v w : Vec2D N U) :
    (is_self_compatible a.unit b.unit = false → Value.binOp f a b = none) ∧
    (is_self_compatible a.unit b.unit = true →
      (Value.binOp f a b).isSome = true) ∧
    (is_self_compatible v.unit w.unit = false → Vec2D.binOp f v w = none) ∧
    (is_self_compatible v.unit w.unit = true →
      (Vec2D.binOp f v w).isSome = true) := by
  refine ⟨?_, ?_, ?_, ?_⟩ <;> intro h <;>
    simp [Value.binOp, Vec2D.binOp, check_compatible, h]

/-- Witness for C1: two `FlagTag` instances that report incompatible
make addition of tagged integers halt; compatible instances succeed. -/
theorem C1_incompatible_arith_halts_witness :
    Value.binOp (fun a b => a + b)
      (Value.new_u (1 : ℤ) (FlagTag.mk false))
      (Value.new_u 2 (FlagTag.mk false)) = none ∧
    (Value.binOp (fun a b => a + b)
      (Value.new_u (1 : ℤ) (FlagTag.mk true))
      (Value.new_u 2 (FlagTag.mk true))).isSome = true :=
  ⟨(C1_incompatible_arith_halts (fun a b => a + b)
      (Value.new_u (1 : ℤ) (FlagTag.mk false))
      (Value.new_u 2 (FlagTag.mk false))
      (Vec2D.new_u 0 0 (FlagTag.mk true))
      (Vec2D.new_u 0 0 (FlagTag.mk true))).1 (by decide),
   (C1_incompatible_arith_halts (fun a b => a + b)
      (Value.new_u (1 : ℤ) (FlagTag.mk true))
      (Value.new_u 2 (FlagTag.mk true))
      (Vec2D.new_u 0 0 (FlagTag.mk true))
      (Vec2D.new_u 0 0 (FlagTag.mk true))).2.1 (by decide)⟩

/-- C3 is false as stated: the negative-size rectangle with origin
(0,0) and size (-1,-1) — a valid value per the spec — neither contains
nor intersects itself, because its max corner lies strictly below its
min corner. -/
theorem C3_counterexample :
    ¬(((Rect.new (Vec2.mk (0 : ℤ) 0) (Vec2.mk (-1) (-1))).contains_rect
        (Rect.new (Vec2.mk (0 : ℤ) 0) (Vec2.mk (-1) (-1))) = true) ∧
      ((Rect.new (Vec2.mk (0 : ℤ) 0) (Vec2.mk (-1) (-1))).intersects_rect
        (Rect.new (Vec2.mk (0 : ℤ) 0) (Vec2.mk (-1) (-1))) = true)) := by
  decide

/-- C3 (amended): every rectangle whose size is non-negative on both
axes — zero-size included — contains and intersects itself, and the
edge-touching rectangles with origin (0,0), size (1,1) and origin
(1,1), size (1,1) intersect under the closed-interval semantics.
Negative-size rectangles are excluded: they fail both predicates. -/
theorem C3_self_contains_amended {N : Type} [LinearOrderedAddCommGroup N]
    (r : Rect N) (hx : 0 ≤ r.size.x) (hy : 0 ≤ r.size.y) :
    r.contains_rect r = true ∧ r.intersects_rect r = true ∧
    (Rect.new (Vec2.mk (0 : ℤ) 0) (Vec2.mk 1 1)).intersects_rect
      (Rect.new (Vec2.mk (1 : ℤ) 1) (Vec2.mk 1 1)) = true := by
  have hxx : r.origin.x ≤ r.origin.x + r.size.x := le_add_of_nonneg_right hx
  have hyy : r.origin.y ≤ r.origin.y + r.size.y := le_add_of_nonneg_right hy
  refine ⟨?_, ?_, by decide⟩ <;>
    simp [Rect.contains_rect, Rect.contains_pos, Rect.intersects_rect,
      Rect.min, Rect.max, Rect.new, Vec2.add, hxx, hyy]

/-- Witness for C3 (amended): the unit square contains and intersects
itself. -/
theorem C3_self_contains_amended_witness :
    (0 : ℤ) ≤ (Rect.new (Vec2.mk (0 : ℤ) 0) (Vec2.mk 1 1)).size.x ∧
    (Rect.new (Vec2.mk (0 : ℤ) 0) (Vec2.mk 1 1)).contains_rect
      (Rect.new (Vec2.mk (0 : ℤ) 0) (Vec2.mk 1 1)) = true :=
  ⟨by decide,
   (C3_self_contains_amended (Rect.new (Vec2.mk (0 : ℤ) 0) (Vec2.mk 1 1))
     (by decide) (by decide)).1⟩

/-- C5: comparison of two `Vec2D`s returns the sign of the sum of the
two per-lane signed comparison codes (each lane compared as -1/0/+1);
in particular (2,0) and (1,1) compare `Equal` although they are not
equal vectors. -/
theorem C5_cmp_sum_of_codes {N U : Type} [LinearOrder N] (a b : Vec2D N U) :
    Vec2D.cmp a b =
      sumCodeSign (ordCode (compare a.x b.x) + ordCode (compare a.y b.y)) ∧
    Vec2D.cmp (Vec2D.new_u (2 : ℤ) 0 ()) (Vec2D.new_u 1 1 ()) = .eq ∧
    Vec2D.beqV (Vec2D.new_u (2 : ℤ) 0 ()) (Vec2D.new_u 1 1 ()) = false :=
  ⟨rfl, by decide, by decide⟩

/-- C6: `Rect::new_min_max` yields origin = min, size = max - min and
max corner = the given max; concretely from (0,0) and (2,3) the size
and the max corner are both (2,3). -/
theorem C6_new_min_max {N : Type} [LinearOrderedAddCommGroup N]
    (mn mx : Vec2 N) :
    (Rect.new_min_max mn mx).origin = mn ∧
    (Rect.new_min_max mn mx).size = Vec2.sub mx mn ∧
    (Rect.new_min_max mn mx).max = mx ∧
    Rect.new_min_max (Vec2.mk (0 : ℤ) 0) (Vec2.mk 2 3) =
      Rect.mk (Vec2.mk 0 0) (Vec2.mk 2 3) ∧
    (Rect.new_min_max (Vec2.mk (0 : ℤ) 0) (Vec2.mk 2 3)).max = Vec2.mk 2 3 := by
  refine ⟨rfl, rfl, ?_, by decide, by decide⟩
  obtain ⟨ax, ay⟩ := mn
  obtain ⟨bx, b2⟩ := mx
  simp only [Rect.max, Rect.new_min_max, Vec2.add, Vec2.sub, Vec2.mk.injEq]
  constructor <;> abel

/-- C7: `is_negative` holds exactly when a max coordinate is strictly
below the matching min coordinate; `is_empty` holds exactly when not
both axes have strictly positive extent; hence the zero-size rectangle
at the origin is empty but not negative, and every negative rectangle
is also empty. -/
theorem C7_is_negative_is_empty {N : Type} [LinearOrderedAddCommGroup N]
    (r : Rect N) :
    (r.is_negative = true ↔
      (Rect.max r).x < (Rect.min r).x ∨ (Rect.max r).y < (Rect.min r).y) ∧
    (r.is_empty = true ↔
      ¬((Rect.min r).x < (Rect.max r).x ∧ (Rect.min r).y < (Rect.max r).y)) ∧
    (Rect.new (Vec2.mk (0 : ℤ) 0) (Vec2.mk 0 0)).is_empty = true ∧
    (Rect.new (Vec2.mk (0 : ℤ) 0) (Vec2.mk 0 0)).is_negative = false ∧
    (r.is_negative = true → r.is_empty = true) := by
  have hneg : r.is_negative = true ↔
      (Rect.max r).x < (Rect.min r).x ∨ (Rect.max r).y < (Rect.min r).y := by
    simp [Rect.is_negative]
  have hemp : r.is_empty = true ↔
      ¬((Rect.min r).x < (Rect.max r).x ∧ (Rect.min r).y < (Rect.max r).y) := by
    rw [Rect.is_empty]
    by_cases h1 : (Rect.min r).x < (Rect.max r).x <;>
      by_cases h2 : (Rect.min r).y < (Rect.max r).y <;>
      simp [h1, h2]
  refine ⟨hneg, hemp, by decide, by decide, ?_⟩
  intro h
  rcases hneg.mp h with h1 | h1
  · exact hemp.mpr fun hc => (lt_asymm h1) hc.1
  · exact hemp.mpr fun hc => (lt_asymm h1) hc.2

/-- Witness for C7: the inverted rectangle with size (-1,-1) is
negative, hence empty by the implication of the theorem. -/
theorem C7_is_negative_is_empty_witness :
    (Rect.new (Vec2.mk (0 : ℤ) 0) (Vec2.mk (-1) (-1))).is_empty = true :=
  (C7_is_negative_is_empty
    (Rect.new (Vec2.mk (0 : ℤ) 0) (Vec2.mk (-1) (-1)))).2.2.2.2 (by decide)

/-- C2: converting a vector or a rectangle from a base-factor tag with
factor `fF` to one with factor `fT` and back is the identity whenever
every lane scaled by the exact conversion factor is an integer (the
divides-evenly case of the claim); in particular the meter vector
(1,1) converts to the centimeter vector (100,100), and that converts
back to (1,1). -/
theorem C2_unit_round_trip (fF fT : ℚ) (hF : fF ≠ 0) (hT : fT ≠ 0)
    (v : Vec2 ℤ) (rc : Rect ℤ)
    (hvx : ∃ k : ℤ, (v.x : ℚ) * (fF / fT) = (k : ℚ))
    (hvy : ∃ k : ℤ, (v.y : ℚ) * (fF / fT) = (k : ℚ))
    (hox : ∃ k : ℤ, (rc.origin.x : ℚ) * (fF / fT) = (k : ℚ))
    (hoy : ∃ k : ℤ, (rc.origin.y : ℚ) * (fF / fT) = (k : ℚ))
    (hsx : ∃ k : ℤ, (rc.size.x : ℚ) * (fF / fT) = (k : ℚ))
    (hsy : ∃ k : ℤ, (rc.size.y : ℚ) * (fF / fT) = (k : ℚ)) :
    (convert_pos2 fF fT v).bind (convert_pos2 fT fF) = some v ∧
    (convert_rect fF fT rc).bind (convert_rect fT fF) = some rc ∧
    convert_pos2 meterFactor centimeterFactor (Vec2.mk 1 1) =
      some (Vec2.mk 100 100) ∧
    convert_pos2 centimeterFactor meterFactor (Vec2.mk 100 100) =
      some (Vec2.mk 1 1) := by
  refine ⟨convert_pos2_round fF fT hF hT v hvx hvy,
    convert_rect_round fF fT hF hT rc hox hoy hsx hsy, ?_, ?_⟩
  · norm_num [convert_pos2, meterFactor, centimeterFactor, ratTrunc]
  · norm_num [convert_pos2, meterFactor, centimeterFactor, ratTrunc]

/-- Witness for C2: the identity conversion (both factors 1) on the
vector (5,7) and the rectangle ((1,2),(3,4)); every scaled lane is
trivially an integer. -/
theorem C2_unit_round_trip_witness :
    ((1 : ℚ) ≠ 0) ∧
    (convert_pos2 1 1 (Vec2.mk 5 7)).bind (convert_pos2 1 1) =
      some (Vec2.mk 5 7) :=
  ⟨one_ne_zero,
   (C2_unit_round_trip 1 1 one_ne_zero one_ne_zero (Vec2.mk 5 7)
      (Rect.mk (Vec2.mk 1 2) (Vec2.mk 3 4))
      ⟨5, by simp⟩ ⟨7, by simp⟩ ⟨1, by simp⟩ ⟨2, by simp⟩
      ⟨3, by simp⟩ ⟨4, by simp⟩).1⟩

/-- C4: every unary operation and every same-tag binary operation on
`Value` and `Vec2D` — the generated arithmetic against a same-tag value
or a bare scalar, cast, map, lane substitution, lerp — returns a result
carrying the left operand's unit-tag instance unchanged. -/
theorem C4_tag_preserved {N M U : Type} [UnitTag U] [Add N] [Sub N] [Mul N]
    (f : N → N → N) (g : N → Option M) (h : N → M)
    (a b : Value N U) (n t : N) (v w : Vec2D N U) :
    (∀ c, Value.binOp f a b = some c → c.unit = a.unit) ∧
    (Value.binOpN f a n).unit = a.unit ∧
    (∀ c, Value.lerp a b t = some c → c.unit = a.unit) ∧
    (∀ c, Value.cast g a = some c → c.unit = a.unit) ∧
    (∀ u, Vec2D.binOp f v w = some u → u.unit = v.unit) ∧
    (Vec2D.binOpN f v n).unit = v.unit ∧
    (∀ u, Vec2D.try_cast g v = some u → u.unit = v.unit) ∧
    (Vec2D.map h v).unit = v.unit ∧
    (∀ u, Vec2D.move_x v w = some u → u.unit = v.unit) ∧
    (∀ u, Vec2D.move_y v w = some u → u.unit = v.unit) := by
  refine ⟨?_, rfl, ?_, ?_, ?_, rfl, ?_, rfl, ?_, ?_⟩
  · intro c hc
    rw [Value.binOp] at hc
    split at hc
    · obtain rfl := Option.some.inj hc; rfl
    · exact absurd hc (by simp)
  · intro c hc
    rw [Value.lerp] at hc
    split at hc
    · obtain rfl := Option.some.inj hc; rfl
    · exact absurd hc (by simp)
  · intro c hc
    simp only [Value.cast, Option.map_eq_some'] at hc
    obtain ⟨m, _, rfl⟩ := hc; rfl
  · intro u hu
    rw [Vec2D.binOp] at hu
    split at hu
    · obtain rfl := Option.some.inj hu; rfl
    · exact absurd hu (by simp)
  · intro u hu
    simp only [Vec2D.try_cast, Option.bind_eq_some, Option.map_eq_some'] at hu
    obtain ⟨p, _, q, _, rfl⟩ := hu; rfl
  · intro u hu
    rw [Vec2D.move_x] at hu
    split at hu
    · obtain rfl := Option.some.inj hu; rfl
    · exact absurd hu (by simp)
  · intro u hu
    rw [Vec2D.move_y] at hu
    split at hu
    · obtain rfl := Option.some.inj hu; rfl
    · exact absurd hu (by simp)

/-- Witness for C4: adding two compatibly tagged integer values yields
a result carrying the left operand's tag. -/
theorem C4_tag_preserved_witness :
    (Value.new_u (3 : ℤ) (FlagTag.mk true)).unit =
      (Value.new_u (1 : ℤ) (FlagTag.mk true)).unit :=
  (C4_tag_preserved (fun x y => x + y) (fun x => some x) (fun x => x)
      (Value.new_u (1 : ℤ) (FlagTag.mk true))
      (Value.new_u 2 (FlagTag.mk true)) 0 0
      (Vec2D.new_u 0 0 (FlagTag.mk true))
      (Vec2D.new_u 0 0 (FlagTag.mk true))).1
    (Value.new_u 3 (FlagTag.mk true)) (by decide)

/-- Embedding of `Rect::shrink` (src/types/rect.rs:168-175) at an
integer lane type: the generic `value / N::from_u8(2).unwrap()` becomes
Rust's truncating integer division (`Int.tdiv`). -/
def Rect.shrinkZ (r : Rect ℤ) (value : Vec2 ℤ) : Rect ℤ :=
  let half_value := Vec2.mk (value.x.tdiv 2) (value.y.tdiv 2)
  ⟨Vec2.add r.origin half_value,
    Vec2.sub (Vec2.sub r.size half_value) half_value⟩

/-- C8 is false as stated for integer lanes: shrinking the rectangle
((0,0),(10,10)) by the odd vector (1,1) leaves the size at (10,10)
because the halving truncates to zero, while the claim demands size
r.size - v = (9,9). -/
theorem C8_counterexample :
    Rect.shrinkZ (Rect.mk (Vec2.mk 0 0) (Vec2.mk 10 10)) (Vec2.mk 1 1) ≠
      Rect.mk
        (Vec2.add (Vec2.mk 0 0) (Vec2.mk ((1 : ℤ).tdiv 2) ((1 : ℤ).tdiv 2)))
        (Vec2.sub (Vec2.mk 10 10) (Vec2.mk 1 1)) := by
  decide

/-- C8 (amended to lane types with exact division, as in the source's
own floating-point examples): `shrink` moves the origin by +v/2 and
shortens the size by v on
both axes, `expand` moves the origin by -v/2 and grows the size by v,
and both keep the center of the rectangle (over a field, where halving
is exact, as in the source's floating-point examples). -/
theorem C8_shrink_expand_center {N : Type} [LinearOrderedField N]
    (r : Rect N) (v : Vec2 N) :
    r.shrink v = Rect.mk (Vec2.add r.origin (Vec2.divN v 2))
      (Vec2.sub r.size v) ∧
    r.expand v = Rect.mk (Vec2.sub r.origin (Vec2.divN v 2))
      (Vec2.add r.size v) ∧
    (r.shrink v).center = r.center ∧
    (r.expand v).center = r.center := by
  obtain ⟨⟨ox, oy⟩, ⟨sx, sy⟩⟩ := r
  obtain ⟨vx, vy⟩ := v
  refine ⟨?_, ?_, ?_, ?_⟩ <;>
    simp only [Rect.shrink, Rect.expand, Rect.center, Vec2.add, Vec2.sub,
      Vec2.divN, Rect.mk.injEq, Vec2.mk.injEq] <;>
    and_intros <;> first | trivial | ring

/-- C9: casting an f32-lane vector to u32 lanes truncates toward zero —
(250.5, 250.5) casts to (250, 250), not (251, 251) — and the cast
succeeds with exactly the truncated lanes whenever each truncated lane
is representable in the unsigned 32-bit range. -/
theorem C9_cast_truncates {U : Type} (v : Vec2D ℚ U)
    (hx0 : 0 ≤ ratTrunc v.x) (hx1 : ratTrunc v.x < 2 ^ 32)
    (hy0 : 0 ≤ ratTrunc v.y) (hy1 : ratTrunc v.y < 2 ^ 32) :
    Vec2D.try_cast u32FromRat v =
      some (Vec2D.new_u (ratTrunc v.x).toNat (ratTrunc v.y).toNat v.unit) ∧
    Vec2D.try_cast u32FromRat (Vec2D.new_u (250.5 : ℚ) 250.5 ()) =
      some (Vec2D.new_u (250 : ℕ) 250 ()) := by
  have h32 : ((2 : ℤ) ^ 32) = 4294967296 := by norm_num
  rw [h32] at hx1 hy1
  constructor
  · simp [Vec2D.try_cast, u32FromRat, hx0, hx1, hy0, hy1, Vec2D.new_u]
  · norm_num [Vec2D.try_cast, u32FromRat, ratTrunc, Vec2D.new_u]
    decide

/-- Witness for C9: the integral vector (3,4) casts to the unsigned
pair given by its (trivial) truncations. -/
theorem C9_cast_truncates_witness :
    (0 : ℤ) ≤ ratTrunc ((3 : ℚ)) ∧
    Vec2D.try_cast u32FromRat (Vec2D.new_u (3 : ℚ) 4 ()) =
      some (Vec2D.new_u (ratTrunc ((3 : ℚ))).toNat
        (ratTrunc ((4 : ℚ))).toNat ()) :=
  ⟨by decide,
   (C9_cast_truncates (Vec2D.new_u (3 : ℚ) 4 ())
      (by decide) (by decide) (by decide) (by decide)).1⟩

/-- C10: equality on `Value` and `Vec2D` compares only the numeric
content and ignores the unit field entirely — it never reads the tags,
so it never invokes the compatibility check and cannot panic; in
particular equal readings compare equal under differing and even
self-incompatible `FlagTag` instances. -/
theorem C10_eq_ignores_unit {N U : Type} [BEq N]
    (n m : N) (u1 u2 : U) (p q p2 q2 : N) (w1 w2 : U) :
    Value.beqV (Value.new_u n u1) (Value.new_u m u2) = (n == m) ∧
    Vec2D.beqV (Vec2D.new_u p q w1) (Vec2D.new_u p2 q2 w2) =
      ((p == p2) && (q == q2)) ∧
    Value.beqV (Value.new_u (1 : ℤ) (FlagTag.mk false))
      (Value.new_u 1 (FlagTag.mk false)) = true ∧
    Vec2D.beqV (Vec2D.new_u (1 : ℤ) 2 (FlagTag.mk false))
      (Vec2D.new_u 1 2 (FlagTag.mk true)) = true :=
  ⟨rfl, rfl, by decide, by decide⟩

end Mathie
